import Mathlib

/-!
Verification of the pyroscope receiver's ingestion pipeline
(`receiver/pyroscopereceiver/receiver.go`).

The embedding works at the level of Go runes modelled as `Char`; every
string boundary manipulated by the code under study (`{`, `}`, `=`, `,`,
decimal digits) is ASCII, where rune positions and Go byte positions
coincide.  A Go string value is a `List Char`.  Fallible Go functions
return `Except`; a Go run-time panic (out-of-range slice) is modelled as
`Option.none` at the outermost level.  Machine integers (`uint64`) are
`Nat` with explicit reduction modulo `2 ^ 64` at each operation that can
wrap.
-/

namespace OtelPyroscope

/-- Go string, at rune granularity. -/
abbrev Str := List Char

/-- View of `Except` as a sum, to derive decidable equality. -/
def exceptToSum : Except ε α → ε ⊕ α
  | .error e => .inl e
  | .ok a => .inr a

instance instDecEqExcept [DecidableEq ε] [DecidableEq α] :
    DecidableEq (Except ε α) := fun x y =>
  decidable_of_iff (exceptToSum x = exceptToSum y)
    (by cases x <;> cases y <;> simp [exceptToSum])

/-- Go `s[lo:hi]` on a string: returns `none` exactly when Go panics with
"slice bounds out of range", i.e. unless `lo ≤ hi ≤ len(s)`
(`lo ≥ 0` always holds for `Nat`). -/
def goSlice (s : Str) (lo hi : Nat) : Option Str :=
  if lo ≤ hi ∧ hi ≤ s.length then some ((s.drop lo).take (hi - lo)) else none

/-- Numeric value of a decimal digit string, most significant first. -/
def digitsVal (s : Str) : Nat :=
  s.foldl (fun a c => 10 * a + (c.toNat - 48)) 0

/-- Go `strconv.ParseUint(s, 10, 64)`: succeeds exactly on a non-empty
all-ASCII-digit string whose value fits in 64 bits (no sign, no blanks,
no underscores are accepted in base 10). -/
def parseUint64 (s : Str) : Option Nat :=
  if s ≠ [] ∧ s.all Char.isDigit ∧ digitsVal s < 2 ^ 64 then some (digitsVal s)
  else none

/-- The separator predicate passed to `strings.FieldsFunc` in
`readParams`: `r == '=' || r == ','`. -/
def sepP (c : Char) : Bool := c = '=' || c = ','

/-- Go `strings.FieldsFunc(s, p)`: the maximal runs of characters not
satisfying `p`; empty fields are dropped. -/
def fieldsFunc (p : Char → Bool) (s : Str) : List Str :=
  (s.splitOnP p).filter (fun w => w ≠ [])

/-- Pair up consecutive elements, as the loop
`for j := 0; j < len(words); j += 2` does (the guard in `readParams`
ensures the length is even before the loop runs). -/
def pairUp : List Str → List (Str × Str)
  | a :: b :: rest => (a, b) :: pairUp rest
  | _ => []

/-- The decoded query string, restricted to the keys the receiver reads.
Each field is the first value `tmp[0]` of the key, `none` when the key is
absent (Go's `url.Values` lookup with the `ok` idiom; a present key always
carries at least one value after URL parsing). -/
structure Query where
  fromV : Option Str
  nameV : Option Str
  untilV : Option Str
  formatV : Option Str
  sampleRateV : Option Str
deriving DecidableEq

/-- The `params` struct: validated query parameters.  (`end` is a Lean
keyword, rendered `endT`.) -/
structure Params where
  start : Nat
  endT : Nat
  name : Str
  labels : List (Str × Str)
deriving DecidableEq

/-- The six failure modes of `readParams`, one per `fmt.Errorf` site. -/
inductive ParamError
  | missingFrom
  | badFrom
  | missingName
  | badLabels
  | missingUntil
  | badUntil
deriving DecidableEq

/-- The message text of each `readParams` error, as written in the Go
source.  For the two `%w`-wrapped parse failures this is the fixed
contextual prefix; the dynamic `strconv` detail follows it after the
shown text, so distinctness of the prefixes gives distinctness of the
full messages. -/
def ParamError.message : ParamError → String
  | .missingFrom => "required start time is missing"
  | .badFrom => "failed to parse start time: "
  | .missingName => "required labels are missing"
  | .badLabels => "failed to compile labels"
  | .missingUntil => "required end time is missing"
  | .badUntil => "failed to parse end time: "

/-- Tail of `readParams` after the `name` key has been handled: reads and
parses the required `until` key and assembles the `params` value. -/
def readParamsEnd (q : Query) (start : Nat) (name : Str)
    (lbls : List (Str × Str)) : Except ParamError Params :=
  match q.untilV with
  | none => .error .missingUntil
  | some uv =>
    match parseUint64 uv with
    | none => .error .badUntil
    | some endv => .ok ⟨start, endv, name, lbls⟩

/-- Branch of `readParams` for a `name` value in which `{` occurs at rune
index `i`: Go takes `tmp[0][i+1 : length-1]` (which panics when `i` is
the final index, modelled by `goSlice` returning `none`), then splits a
non-empty block on `=`/`,` and requires an even, non-zero field count. -/
def readParamsBrace (q : Query) (start : Nat) (nv : Str) (i : Nat) :
    Option (Except ParamError Params) :=
  match goSlice nv (i + 1) (nv.length - 1) with
  | none => none
  | some promqllike =>
    if promqllike.length > 0 then
      let words := fieldsFunc sepP promqllike
      if words.length = 0 || words.length % 2 != 0 then
        some (.error .badLabels)
      else
        some (readParamsEnd q start (nv.take i) (pairUp words))
    else
      some (readParamsEnd q start (nv.take i) [])

/-- `readParams`: validates `from`, `name` (with optional `{k=v,...}`
label block) and `until`, in that order.  `none` models the Go panic that
the slice expression raises when the first `{` of the `name` value is its
final character. -/
def readParams (q : Query) : Option (Except ParamError Params) :=
  match q.fromV with
  | none => some (.error .missingFrom)
  | some fv =>
    match parseUint64 fv with
    | none => some (.error .badFrom)
    | some start =>
      match q.nameV with
      | none => some (.error .missingName)
      | some nv =>
        match nv.findIdx? (· = '{') with
        | none => some (readParamsEnd q start nv [])
        | some i => readParamsBrace q start nv i

/-- 64-bit wrap-around of a `Nat`. -/
def u64 (n : Nat) : Nat := n % 2 ^ 64

/-- Go `uint64` subtraction `a - b` (wrapping), for `a b < 2 ^ 64`. -/
def sub64 (a b : Nat) : Nat := (a + 2 ^ 64 - b) % 2 ^ 64

/-- `ns(sec uint64) uint64 { return sec * 1e9 }` in `uint64` arithmetic. -/
def ns64 (sec : Nat) : Nat := u64 (sec * 1000000000)

/-- Profile-type metadata of one parsed profile
(`profile_types.ProfileType`). -/
structure ProfileType where
  typ : String
  sampleType : List String
  sampleUnit : List String
  periodType : String
  periodUnit : String
deriving DecidableEq

/-- One profile record returned by the external JFR parser
(`profile_types.ProfileIR`); the payload is raw bytes. -/
structure ProfileIR where
  ptype : ProfileType
  payload : List Nat
  payloadType : Nat
deriving DecidableEq

/-- One assembled telemetry record (one `LogRecord` of the batch). -/
structure OutputRecord where
  timestamp : Nat
  durationNs : String
  serviceName : Str
  tags : List (Str × Str)
  typ : String
  sampleTypes : List String
  sampleUnits : List String
  periodType : String
  periodUnit : String
  payloadType : String
  body : List Nat
deriving DecidableEq

/-- The record assembly loop body of `readProfiles`: timestamp from
`start`, `duration_ns` from the wrapping `uint64` difference
`end - start`, labels copied in order, profile-type metadata copied
field for field, raw payload as body. -/
def assembleRecord (pm : Params) (pr : ProfileIR) : OutputRecord :=
  { timestamp := ns64 pm.start
    durationNs := Nat.repr (ns64 (sub64 pm.endT pm.start))
    serviceName := pm.name
    tags := pm.labels
    typ := pr.ptype.typ
    sampleTypes := pr.ptype.sampleType
    sampleUnits := pr.ptype.sampleUnit
    periodType := pr.ptype.periodType
    periodUnit := pr.ptype.periodUnit
    payloadType := Nat.repr pr.payloadType
    body := pr.payload }

/-- Outcomes of the external collaborators touched by one request:
multipart extraction, decompression, the JFR parser, and the downstream
consumer.  Each is the result the collaborator would return if invoked. -/
structure Env where
  multipart : Except String Unit
  decompress : Except String Unit
  parse : Except String (List ProfileIR)
  consume : Except String Unit

/-- The processing stages `readProfiles` can attempt, in source order. -/
inductive Stage
  | formatCheck
  | multipart
  | decompress
  | parse
  | assemble
deriving DecidableEq

/-- `readProfiles`: format gate, multipart extraction, decompression,
optional `sampleRate` parse, JFR parse, record assembly.  Returns the
result together with the list of stages that were attempted, in order.
Error messages carry the wrapping prefixes of the Go `fmt.Errorf` calls. -/
def readProfiles (q : Query) (pm : Params) (env : Env) :
    Except String (List OutputRecord) × List Stage :=
  if q.formatV = some ("jfr".toList) then
    match env.multipart with
    | .error e => (.error e, [.formatCheck, .multipart])
    | .ok _ =>
      match env.decompress with
      | .error e =>
        (.error ("failed to decompress body: " ++ e),
          [.formatCheck, .multipart, .decompress])
      | .ok _ =>
        match (match q.sampleRateV with
               | none => some 0
               | some v => parseUint64 v) with
        | none =>
          (.error "failed to parse rate: ",
            [.formatCheck, .multipart, .decompress])
        | some _ =>
          match env.parse with
          | .error e =>
            (.error ("failed to parse pprof: " ++ e),
              [.formatCheck, .multipart, .decompress, .parse])
          | .ok ps =>
            (.ok (ps.map (assembleRecord pm)),
              [.formatCheck, .multipart, .decompress, .parse, .assemble])
  else (.error "unsupported format, supported: [jfr]", [.formatCheck])

/-- Which terminal outcome the request reached. -/
inductive Terminal
  | paramsError
  | methodError
  | profilesError
  | noRecords
  | consumeError
  | success
deriving DecidableEq

/-- Observable result of the goroutine body of `handle`: response status
and body, the terminal outcome, the request-count and latency metric
observations that were recorded (each tagged `(service, error_code)`),
the batch handed to the downstream consumer if `ConsumeLogs` was called,
and the `readProfiles` stages attempted. -/
structure HandleResult where
  status : Nat
  body : String
  terminal : Terminal
  requestCountObs : List (Str × String)
  latencyObs : List (Str × String)
  delegated : Option (List OutputRecord)
  stages : List Stage
deriving DecidableEq

/-- The goroutine body of `handle` (receiver.go lines 119-161), with
`handleError`'s metric emissions inlined.  `isPost` is
`req.Method == http.MethodPost`.  `none` propagates the `readParams`
panic (an unrecovered panic in this goroutine).  Note the zero-record
branch calls `writeResponseNoContent` directly, recording no metrics. -/
def handle (q : Query) (isPost : Bool) (env : Env) : Option HandleResult :=
  match readParams q with
  | none => none
  | some (.error _) =>
    some { status := 400, body := "bad url query", terminal := .paramsError
           requestCountObs := [([], "1")], latencyObs := [([], "1")]
           delegated := none, stages := [] }
  | some (.ok pm) =>
    if !isPost then
      some { status := 405, body := "method not allowed, supported: [POST]"
             terminal := .methodError
             requestCountObs := [(pm.name, "1")], latencyObs := [(pm.name, "1")]
             delegated := none, stages := [] }
    else
      match readProfiles q pm env with
      | (.error msg, st) =>
        some { status := 400, body := msg, terminal := .profilesError
               requestCountObs := [(pm.name, "1")], latencyObs := [(pm.name, "1")]
               delegated := none, stages := st }
      | (.ok records, st) =>
        if records.isEmpty then
          some { status := 204, body := "", terminal := .noRecords
                 requestCountObs := [], latencyObs := []
                 delegated := none, stages := st }
        else
          match env.consume with
          | .error msg =>
            some { status := 500, body := msg, terminal := .consumeError
                   requestCountObs := [(pm.name, "1")], latencyObs := [(pm.name, "1")]
                   delegated := some records, stages := st }
          | .ok _ =>
            some { status := 204, body := "", terminal := .success
                   requestCountObs := [(pm.name, "")], latencyObs := [(pm.name, "")]
                   delegated := some records, stages := st }

/-!
Spec-side constructions for the label-expression grammar
`name{k1=v1,k2=v2,...}` (taken from the spec's words, §4.1/§8): a
rendering of a pair list into a label block, and the token stream it
denotes.
-/

/-- The token stream of a pair list: keys and values interleaved. -/
def tokens : List (Str × Str) → List Str
  | [] => []
  | (k, v) :: rest => k :: v :: tokens rest

/-- Render a pair list as the inside of a `{...}` label block:
`k1=v1,k2=v2,...`. -/
def renderBlock : List (Str × Str) → Str
  | [] => []
  | [(k, v)] => k ++ '=' :: v
  | (k, v) :: p :: rest => k ++ '=' :: v ++ ',' :: renderBlock (p :: rest)

/-- Render a full `name` query value with a label block:
`app{k1=v1,...}` (also `app{}` when the list is empty). -/
def renderName (app : Str) (pairs : List (Str × Str)) : Str :=
  app ++ '{' :: renderBlock pairs ++ ['}']

/-- A well-formed label pair: key and value non-empty and free of the
separator characters `=` and `,`. -/
def wfPair (pr : Str × Str) : Prop :=
  pr.1 ≠ [] ∧ pr.2 ≠ [] ∧ (∀ c ∈ pr.1, ¬ sepP c) ∧ (∀ c ∈ pr.2, ¬ sepP c)

instance (pr : Str × Str) : Decidable (wfPair pr) := by
  unfold wfPair; infer_instance

/-! Helper lemmas about `fieldsFunc` and the label-block grammar. -/

theorem fieldsFunc_single {p : Char → Bool} {t : Str} (h : ∀ c ∈ t, ¬ p c)
    (ht : t ≠ []) : fieldsFunc p t = [t] := by
  unfold fieldsFunc
  rw [List.splitOnP_eq_single _ _ h]
  simp [ht]

theorem fieldsFunc_first {p : Char → Bool} {t : Str} (s : Str) {sep : Char}
    (h : ∀ c ∈ t, ¬ p c) (hsep : p sep) (ht : t ≠ []) :
    fieldsFunc p (t ++ sep :: s) = t :: fieldsFunc p s := by
  unfold fieldsFunc
  rw [List.splitOnP_first _ _ h sep hsep s]
  simp [ht]

theorem fieldsFunc_renderBlock {pairs : List (Str × Str)}
    (h : ∀ pr ∈ pairs, wfPair pr) (hne : pairs ≠ []) :
    fieldsFunc sepP (renderBlock pairs) = tokens pairs := by
  induction pairs with
  | nil => exact absurd rfl hne
  | cons hd tl ih =>
    obtain ⟨k, v⟩ := hd
    obtain ⟨hk, hv, hks, hvs⟩ := h (k, v) (List.mem_cons_self _ _)
    cases tl with
    | nil =>
      show fieldsFunc sepP (k ++ '=' :: v) = [k, v]
      rw [fieldsFunc_first v hks (by simp [sepP]) hk, fieldsFunc_single hvs hv]
    | cons p2 tl2 =>
      have hrb : renderBlock ((k, v) :: p2 :: tl2)
          = k ++ '=' :: (v ++ ',' :: renderBlock (p2 :: tl2)) := by
        simp [renderBlock]
      rw [hrb, fieldsFunc_first _ hks (by simp [sepP]) hk,
        fieldsFunc_first _ hvs (by simp [sepP]) hv,
        ih (fun pr hpr => h pr (List.mem_cons_of_mem _ hpr)) (by simp)]
      rfl

theorem pairUp_tokens (pairs : List (Str × Str)) :
    pairUp (tokens pairs) = pairs := by
  induction pairs with
  | nil => rfl
  | cons hd tl ih => obtain ⟨k, v⟩ := hd; simp [tokens, pairUp, ih]

theorem tokens_length (pairs : List (Str × Str)) :
    (tokens pairs).length = 2 * pairs.length := by
  induction pairs with
  | nil => rfl
  | cons hd tl ih => obtain ⟨k, v⟩ := hd; simp [tokens, ih]; ring

theorem findIdx_brace (app rest : Str) (h : '{' ∉ app) :
    (app ++ '{' :: rest).findIdx? (· = '{') = some app.length := by
  induction app with
  | nil => simp [List.findIdx?_cons]
  | cons c cs ih =>
    have hc : ¬ (c = '{') := fun hc => h (hc ▸ List.mem_cons_self _ _)
    have ih2 := ih (fun hm => h (List.mem_cons_of_mem _ hm))
    simp [List.findIdx?_cons, hc, ih2]

theorem findIdx_no_brace (nv : Str) (h : '{' ∉ nv) :
    nv.findIdx? (· = '{') = none := by
  rw [List.findIdx?_eq_none_iff]
  intro x hx
  simp only [decide_eq_false_iff_not]
  exact fun hc => h (hc ▸ hx)

theorem goSlice_block (app block : Str) :
    goSlice (app ++ '{' :: (block ++ ['}'])) (app.length + 1)
      ((app ++ '{' :: (block ++ ['}'])).length - 1) = some block := by
  unfold goSlice
  have hlen : (app ++ '{' :: (block ++ ['}'])).length
      = app.length + block.length + 2 := by
    simp [List.length_append]; omega
  rw [hlen, if_pos (by omega)]
  have hdrop : (app ++ '{' :: (block ++ ['}'])).drop (app.length + 1)
      = block ++ ['}'] := by
    have heq : app ++ '{' :: (block ++ ['}'])
        = (app ++ ['{']) ++ (block ++ ['}']) := by simp
    rw [heq]
    have hl : (app ++ ['{']).length = app.length + 1 := by simp
    rw [← hl, List.drop_left]
  rw [hdrop]
  have harith : app.length + block.length + 2 - 1 - (app.length + 1)
      = block.length := by omega
  rw [harith]
  congr 1
  exact List.take_left block ['}']

theorem take_app_of_render (app block : Str) :
    (app ++ '{' :: (block ++ ['}'])).take app.length = app :=
  List.take_left app ('{' :: (block ++ ['}']))

theorem renderBlock_ne_nil (pr : Str × Str) (rest : List (Str × Str)) :
    renderBlock (pr :: rest) ≠ [] := by
  obtain ⟨k, v⟩ := pr
  cases rest <;> simp [renderBlock]

/-- Master lemma: `readParams` accepts a rendered well-formed label
expression and returns the stripped name with exactly the listed pairs. -/
theorem readParams_ok_of_render (q : Query) (f u : Str) (start endv : Nat)
    (app : Str) (pairs : List (Str × Str))
    (hf : q.fromV = some f) (hfp : parseUint64 f = some start)
    (hu : q.untilV = some u) (hup : parseUint64 u = some endv)
    (hn : q.nameV = some (renderName app pairs))
    (happ : '{' ∉ app) (hwf : ∀ pr ∈ pairs, wfPair pr) :
    readParams q = some (.ok ⟨start, endv, app, pairs⟩) := by
  have hr : renderName app pairs = app ++ '{' :: (renderBlock pairs ++ ['}']) := by
    simp [renderName]
  have hidx := findIdx_brace app (renderBlock pairs ++ ['}']) happ
  have hslice := goSlice_block app (renderBlock pairs)
  have htake := take_app_of_render app (renderBlock pairs)
  simp only [readParams, hf, hfp, hn, hr]
  rw [hidx]
  simp only [readParamsBrace]
  rw [hslice]
  cases hp : pairs with
  | nil =>
    simp [renderBlock, readParamsEnd, hu, hup, htake, hp]
  | cons p1 rest =>
    have hne : (renderBlock (p1 :: rest)).length > 0 := by
      simpa [List.length_pos] using renderBlock_ne_nil p1 rest
    have hfields := fieldsFunc_renderBlock (hp ▸ hwf) (List.cons_ne_nil p1 rest)
    have hlen := tokens_length (p1 :: rest)
    have hsz : ¬ ((tokens (p1 :: rest)).length = 0) := by simp [hlen]
    have hmod : (tokens (p1 :: rest)).length % 2 = 0 := by omega
    simp [hfields, hne, hsz, hmod, readParamsEnd, hu, hup, htake, pairUp_tokens]

/-- Master lemma: `readParams` accepts a `name` value with no `{` as-is,
with zero labels (no non-emptiness check is performed). -/
theorem readParams_ok_of_noBrace (q : Query) (f u nv : Str) (start endv : Nat)
    (hf : q.fromV = some f) (hfp : parseUint64 f = some start)
    (hu : q.untilV = some u) (hup : parseUint64 u = some endv)
    (hn : q.nameV = some nv) (hnb : '{' ∉ nv) :
    readParams q = some (.ok ⟨start, endv, nv, []⟩) := by
  simp only [readParams, hf, hfp, hn]
  rw [findIdx_no_brace nv hnb]
  simp [readParamsEnd, hu, hup]

/-!
Interleaving model of `httpHandlerIngest` (receiver.go lines 97-109):
the goroutine spawned by `handle` runs its stages as atomic events and
signals completion last (`defer func() { c <- struct{}{} }()`); the
handler `select`s between the deadline context firing and that signal.
The deadline may fire after any number of goroutine steps; the goroutine
is not terminated by it.
-/

/-- Atomic events of one request: the goroutine's steps plus the
deadline firing.  `delegate` is the `recv.next.ConsumeLogs` call. -/
inductive GoEvent
  | validate
  | profiles
  | delegate
  | metricsEv
  | respond
  | signal
  | timeout
deriving DecidableEq

/-- The sequence of events the goroutine body of `handle` executes for a
given result, in source order; the completion signal is always last. -/
def goroutineScript (res : HandleResult) : List GoEvent :=
  [GoEvent.validate]
    ++ (if res.stages = [] then [] else [GoEvent.profiles])
    ++ (if res.delegated.isSome then [GoEvent.delegate] else [])
    ++ (if res.requestCountObs = [] then [] else [GoEvent.metricsEv])
    ++ [GoEvent.respond, GoEvent.signal]

/-- The request's event trace when the deadline fires after the first
`k` goroutine steps (the goroutine keeps running afterwards). -/
def deadlineTrace (script : List GoEvent) (k : Nat) : List GoEvent :=
  script.take k ++ GoEvent.timeout :: script.drop k

/-- The status the caller receives: the `select` answers 408 when the
deadline context fires before the completion signal is received,
otherwise the goroutine's own response stands. -/
def respondedStatus (res : HandleResult) (trace : List GoEvent) : Nat :=
  if GoEvent.timeout ∈ trace.takeWhile (· ≠ GoEvent.signal) then 408
  else res.status

/-- The goroutine work already performed when the deadline fired. -/
def performedBeforeDeadline (trace : List GoEvent) : List GoEvent :=
  trace.takeWhile (· ≠ GoEvent.timeout)

theorem timeout_mem_takeWhile (l1 l2 : List GoEvent)
    (h : ∀ x ∈ l1, x ≠ GoEvent.signal) :
    GoEvent.timeout ∈ (l1 ++ GoEvent.timeout :: l2).takeWhile
      (· ≠ GoEvent.signal) := by
  induction l1 with
  | nil => simp [List.takeWhile]
  | cons x l1 ih =>
    have hx : x ≠ GoEvent.signal := h x (List.mem_cons_self _ _)
    have ih2 := ih (fun y hy => h y (List.mem_cons_of_mem _ hy))
    simp only [List.cons_append, List.takeWhile]
    rw [show (decide (x ≠ GoEvent.signal)) = true by simp [hx]]
    exact List.mem_cons_of_mem x ih2

theorem signal_not_in_dropLast (res : HandleResult) :
    ∀ x ∈ (goroutineScript res).dropLast, x ≠ GoEvent.signal := by
  unfold goroutineScript
  split <;> split <;> split <;> decide

theorem signal_not_in_take (res : HandleResult) (k : Nat)
    (hk : k < (goroutineScript res).length) :
    ∀ x ∈ (goroutineScript res).take k, x ≠ GoEvent.signal := by
  intro x hx
  apply signal_not_in_dropLast res
  rw [List.dropLast_eq_take]
  have hmin : min k ((goroutineScript res).length - 1) = k := by omega
  have hx2 : x ∈ List.take k
      (List.take ((goroutineScript res).length - 1) (goroutineScript res)) := by
    rw [List.take_take, hmin]
    exact hx
  exact List.mem_of_mem_take hx2

/-! Concrete request fixtures used by witnesses and counterexamples. -/

/-- A profile record as the external JFR parser would return it. -/
def prCpu : ProfileIR :=
  ⟨⟨"cpu", ["samples"], ["count"], "cpu", "ns"⟩, [1, 2, 3], 0⟩

/-- All external collaborators succeed; the parser yields one record. -/
def envOk : Env := ⟨.ok (), .ok (), .ok [prCpu], .ok ()⟩

/-- All collaborators succeed; the parser yields zero records. -/
def envEmptyParse : Env := ⟨.ok (), .ok (), .ok [], .ok ()⟩

/-- `?from=1000&name=svc{env=prod}&until=2000&format=jfr`. -/
def qSvc : Query :=
  ⟨some ("1000".toList), some ("svc".toList ++ '{' :: ("env=prod".toList ++ ['}'])), some ("2000".toList),
    some ("jfr".toList), none⟩

/-- The params `readParams` produces for `qSvc`. -/
def pmSvc : Params := ⟨1000, 2000, "svc".toList, [("env".toList, "prod".toList)]⟩

/-- `?from=1&name=app&until=2` (no `format`). -/
def qNoFmt : Query :=
  ⟨some ("1".toList), some ("app".toList), some ("2".toList), none, none⟩

/-- `?name=app&until=2` (no `from`). -/
def qMissingFrom : Query :=
  ⟨none, some ("app".toList), some ("2".toList), none, none⟩

/-- `?from=1&until=2` (no `name`). -/
def qMissingName : Query :=
  ⟨some ("1".toList), none, some ("2".toList), none, none⟩

/-- `?from=7&name=&until=9`: present but empty `name` value. -/
def qEmptyName : Query :=
  ⟨some ("7".toList), some [], some ("9".toList), none, none⟩

/-- `?from=5&name=svc{env=prod,env=dev}&until=6`: duplicate label names. -/
def qDup : Query :=
  ⟨some ("5".toList), some ("svc".toList ++ '{' :: ("env=prod,env=dev".toList ++ ['}'])),
    some ("6".toList), none, none⟩

/-- `?from=1&name=app{}&until=2`: empty label block. -/
def qEmptyBlock : Query :=
  ⟨some ("1".toList), some ("app".toList ++ ['{', '}']), some ("2".toList), none, none⟩

/-- `?from=1&name=myapp&until=2`: no label block. -/
def qNoBrace : Query :=
  ⟨some ("1".toList), some ("myapp".toList), some ("2".toList), none, none⟩

/-- `?from=1&name=app{a=b,c}&until=2`: three tokens in the label block. -/
def qOddTok : Query :=
  ⟨some ("1".toList), some ("app".toList ++ '{' :: ("a=b,c".toList ++ ['}'])), some ("2".toList), none, none⟩

/-- The result `handle` produces for `qSvc` against `envOk`. -/
def resSuccess : HandleResult :=
  { status := 204, body := "", terminal := .success
    requestCountObs := [("svc".toList, "")]
    latencyObs := [("svc".toList, "")]
    delegated := some [assembleRecord pmSvc prCpu]
    stages := [.formatCheck, .multipart, .decompress, .parse, .assemble] }

/-! The claims. -/

/-- C1: claims `readParams` never panics, in particular on a `name`
value whose first `{` is its final character.  In fact the code takes
the slice `tmp[0][i+1 : length-1]` = `tmp[0][4:3]`, whose bounds are
inverted, so Go panics with "slice bounds out of range" — modelled here
by `readParams` returning `none` — and the panic is raised in a goroutine
with no recover, crashing the process.  This contradicts the error
design (every failure becomes an error response), so it is a code bug. -/
theorem readParams_panics_on_trailing_brace :
    readParams ⟨some ("1".toList), some ("app".toList ++ ['{']), some ("2".toList),
      none, none⟩ = none := by decide

/-- C3 counterexample: two different query-validation failure modes
(missing `from` vs missing `name`) produce the same response body
`bad url query`; the distinct `readParams` messages never reach the
client, refuting the claim that the body is each mode's distinct
message. -/
theorem distinct_failures_same_body :
    readParams qMissingFrom = some (.error .missingFrom)
    ∧ readParams qMissingName = some (.error .missingName)
    ∧ (handle qMissingFrom true envOk).map (fun r => (r.status, r.body))
        = some (400, "bad url query")
    ∧ (handle qMissingName true envOk).map (fun r => (r.status, r.body))
        = some (400, "bad url query") := by decide

/-- C3 amended: `readParams` distinguishes the six failure modes by
pairwise-distinct messages, but every query-validation failure is
surfaced as a client error (400) whose body is the constant text
`bad url query`; the distinct message is discarded by `handle`. -/
theorem param_messages_distinct_but_body_constant :
    (∀ e1 e2 : ParamError, e1.message = e2.message → e1 = e2) ∧
    (∀ (q : Query) (post : Bool) (env : Env) (e : ParamError),
      readParams q = some (.error e) →
      ∃ res, handle q post env = some res ∧ res.status = 400
        ∧ res.body = "bad url query") := by
  constructor
  · intro e1 e2 h
    cases e1 <;> cases e2 <;> first
      | rfl
      | exact absurd h (by decide)
  · intro q post env e h
    refine ⟨{ status := 400, body := "bad url query", terminal := .paramsError
              requestCountObs := [([], "1")], latencyObs := [([], "1")]
              delegated := none, stages := [] }, ?_, rfl, rfl⟩
    simp only [handle, h]

/-- C3 witness: the amended theorem applied to the missing-`from`
query. -/
theorem param_messages_distinct_but_body_constant_witness :
    ∃ res, handle qMissingFrom false envOk = some res ∧ res.status = 400
      ∧ res.body = "bad url query" :=
  param_messages_distinct_but_body_constant.2 qMissingFrom false envOk
    ParamError.missingFrom (by decide)

/-- C4 counterexample: a present-but-empty `name` value passes
validation: `readParams` succeeds and returns an empty application
name, refuting the claim that an empty application-name part fails
validation. -/
theorem empty_name_accepted :
    readParams qEmptyName = some (.ok ⟨7, 9, [], []⟩) := by decide

/-- C4 amended: the application-name part is never checked for
non-emptiness: any `name` value without `{` — the empty string
included — is accepted verbatim as the application name, so a
successfully returned params value may carry an empty name. -/
theorem name_never_checked_nonempty (q : Query) (f u nv : Str)
    (start endv : Nat)
    (hf : q.fromV = some f) (hfp : parseUint64 f = some start)
    (hu : q.untilV = some u) (hup : parseUint64 u = some endv)
    (hn : q.nameV = some nv) (hnb : '{' ∉ nv) :
    readParams q = some (.ok ⟨start, endv, nv, []⟩) :=
  readParams_ok_of_noBrace q f u nv start endv hf hfp hu hup hn hnb

/-- C4 witness: the amended theorem at the empty `name` value. -/
theorem name_never_checked_nonempty_witness :
    readParams qEmptyName = some (.ok ⟨7, 9, [], []⟩) :=
  name_never_checked_nonempty qEmptyName ("7".toList) ("9".toList) [] 7 9
    rfl (by decide) rfl (by decide) rfl (by decide)

/-- C5: for every valid rendered label expression
`name{k1=v1,k2=v2,...}` (name free of `{`, keys and values non-empty
and free of `=`/`,`), `readParams` returns the name stripped of the
`{...}` suffix with exactly the listed pairs in source order,
duplicates preserved; the empty block `name{}` is the `pairs = []`
instance of the first conjunct; a bare `name` with no brace yields
zero labels (second conjunct). -/
theorem label_expression_roundtrip :
    (∀ (q : Query) (f u app : Str) (start endv : Nat)
      (pairs : List (Str × Str)),
      q.fromV = some f → parseUint64 f = some start →
      q.untilV = some u → parseUint64 u = some endv →
      q.nameV = some (renderName app pairs) → '{' ∉ app →
      (∀ pr ∈ pairs, wfPair pr) →
      readParams q = some (.ok ⟨start, endv, app, pairs⟩)) ∧
    (∀ (q : Query) (f u nv : Str) (start endv : Nat),
      q.fromV = some f → parseUint64 f = some start →
      q.untilV = some u → parseUint64 u = some endv →
      q.nameV = some nv → '{' ∉ nv →
      readParams q = some (.ok ⟨start, endv, nv, []⟩)) :=
  ⟨fun q f u app start endv pairs hf hfp hu hup hn happ hwf =>
    readParams_ok_of_render q f u start endv app pairs hf hfp hu hup hn happ hwf,
   fun q f u nv start endv hf hfp hu hup hn hnb =>
    readParams_ok_of_noBrace q f u nv start endv hf hfp hu hup hn hnb⟩

/-- C5 witness: the theorem at a two-pair expression with a duplicate
label name, at an empty block, and at a brace-free name. -/
theorem label_expression_roundtrip_witness :
    readParams qDup = some (.ok ⟨5, 6, "svc".toList,
      [("env".toList, "prod".toList), ("env".toList, "dev".toList)]⟩)
    ∧ readParams qEmptyBlock = some (.ok ⟨1, 2, "app".toList, []⟩)
    ∧ readParams qNoBrace = some (.ok ⟨1, 2, "myapp".toList, []⟩) :=
  ⟨label_expression_roundtrip.1 qDup ("5".toList) ("6".toList)
      ("svc".toList) 5 6
      [("env".toList, "prod".toList), ("env".toList, "dev".toList)]
      rfl (by decide) rfl (by decide) (by decide) (by decide) (by decide),
   label_expression_roundtrip.1 qEmptyBlock ("1".toList) ("2".toList)
      ("app".toList) 1 2 []
      rfl (by decide) rfl (by decide) (by decide) (by decide) (by decide),
   label_expression_roundtrip.2 qNoBrace ("1".toList) ("2".toList)
      ("myapp".toList) 1 2 rfl (by decide) rfl (by decide) rfl (by decide)⟩

/-- C6: a `name` value whose non-empty label block splits into an odd
number of tokens makes `readParams` fail with the malformed-labels
error, the request is rejected with a 400 response, and no label list
(partial or otherwise) is returned. -/
theorem odd_token_count_rejected (q : Query) (f app rawBlock : Str)
    (start : Nat) (env : Env) (post : Bool)
    (hf : q.fromV = some f) (hfp : parseUint64 f = some start)
    (hn : q.nameV = some (app ++ '{' :: (rawBlock ++ ['}'])))
    (happ : '{' ∉ app) (hb : rawBlock ≠ [])
    (hodd : (fieldsFunc sepP rawBlock).length % 2 = 1) :
    readParams q = some (.error .badLabels) ∧
    ∃ res, handle q post env = some res ∧ res.status = 400
      ∧ res.body = "bad url query" ∧ res.delegated = none := by
  have h1 : readParams q = some (.error .badLabels) := by
    simp only [readParams, hf, hfp, hn]
    rw [findIdx_brace app (rawBlock ++ ['}']) happ]
    simp only [readParamsBrace]
    rw [goSlice_block app rawBlock]
    have hlen : rawBlock.length > 0 := by
      simpa [List.length_pos] using hb
    simp [hlen, hodd]
  refine ⟨h1, { status := 400, body := "bad url query"
                terminal := .paramsError
                requestCountObs := [([], "1")], latencyObs := [([], "1")]
                delegated := none, stages := [] }, ?_, rfl, rfl, rfl⟩
  simp only [handle, h1]

/-- C6 witness: the theorem at `name=app{a=b,c}` (tokens `a`,`b`,`c`). -/
theorem odd_token_count_rejected_witness :
    readParams qOddTok = some (.error .badLabels) ∧
    ∃ res, handle qOddTok true envOk = some res ∧ res.status = 400
      ∧ res.body = "bad url query" ∧ res.delegated = none :=
  odd_token_count_rejected qOddTok ("1".toList) ("app".toList)
    ("a=b,c".toList) 1 envOk true rfl (by decide) (by decide) (by decide)
    (by decide) (by decide)

/-- C2 counterexample: a request whose parser yields zero records
reaches the no-content terminal outcome having recorded zero
request-count and zero latency observations — not exactly one of each
as claimed (the zero-record branch of `handle` calls
`writeResponseNoContent` without touching the metric instruments). -/
theorem no_metrics_on_zero_records :
    (handle qSvc true envEmptyParse).map
      (fun r => (r.terminal, r.requestCountObs.length, r.latencyObs.length))
      = some (Terminal.noRecords, 0, 0) := by decide

/-- C2 amended: every terminal outcome of `handle` except the
zero-record no-content outcome records exactly one request-count and
one latency observation, both carrying the same `(service, error_code)`
attribute pair, with an empty error code exactly on success and with
the parsed service name whenever parameter validation succeeded; the
zero-record outcome records no observation at all. -/
theorem handle_metrics_per_outcome (q : Query) (post : Bool) (env : Env)
    (res : HandleResult) (h : handle q post env = some res) :
    (res.terminal = Terminal.noRecords →
      res.requestCountObs = [] ∧ res.latencyObs = []) ∧
    (res.terminal ≠ Terminal.noRecords →
      ∃ svc code, res.requestCountObs = [(svc, code)]
        ∧ res.latencyObs = [(svc, code)]
        ∧ (code = "" ↔ res.terminal = Terminal.success)
        ∧ (res.terminal = Terminal.paramsError → svc = [])
        ∧ (res.terminal ≠ Terminal.paramsError →
            ∃ pm, readParams q = some (Except.ok pm) ∧ svc = pm.name)) := by
  unfold handle at h
  cases hrp : readParams q with
  | none => rw [hrp] at h; exact absurd h (by simp)
  | some r =>
    rw [hrp] at h
    cases r with
    | error e =>
      simp only [Option.some.injEq] at h
      subst h
      exact ⟨fun hc => Terminal.noConfusion hc,
        fun _ => ⟨[], "1", rfl, rfl,
          ⟨fun hc => absurd hc (by decide), fun hc => Terminal.noConfusion hc⟩,
          fun _ => rfl, fun hne => absurd rfl hne⟩⟩
    | ok pm =>
      cases post with
      | false =>
        simp only [Bool.not_false, if_true, Option.some.injEq] at h
        subst h
        exact ⟨fun hc => Terminal.noConfusion hc,
          fun _ => ⟨pm.name, "1", rfl, rfl,
            ⟨fun hc => absurd hc (by decide),
             fun hc => Terminal.noConfusion hc⟩,
            fun hc => Terminal.noConfusion hc, fun _ => ⟨pm, rfl, rfl⟩⟩⟩
      | true =>
        simp only [Bool.not_true, Bool.false_eq_true, if_false] at h
        cases hpr : readProfiles q pm env with
        | mk result st =>
          rw [hpr] at h
          cases result with
          | error msg =>
            simp only [Option.some.injEq] at h
            subst h
            exact ⟨fun hc => Terminal.noConfusion hc,
              fun _ => ⟨pm.name, "1", rfl, rfl,
                ⟨fun hc => absurd hc (by decide),
                 fun hc => Terminal.noConfusion hc⟩,
                fun hc => Terminal.noConfusion hc,
                fun _ => ⟨pm, rfl, rfl⟩⟩⟩
          | ok records =>
            cases records with
            | nil =>
              simp only [List.isEmpty_nil, if_true, Option.some.injEq] at h
              subst h
              exact ⟨fun _ => ⟨rfl, rfl⟩, fun hne => absurd rfl hne⟩
            | cons r0 rs =>
              cases hc : env.consume with
              | error msg =>
                rw [hc] at h
                simp only [List.isEmpty_cons, Bool.false_eq_true, if_false,
                  Option.some.injEq] at h
                subst h
                exact ⟨fun hcon => Terminal.noConfusion hcon,
                  fun _ => ⟨pm.name, "1", rfl, rfl,
                    ⟨fun hcon => absurd hcon (by decide),
                     fun hcon => Terminal.noConfusion hcon⟩,
                    fun hcon => Terminal.noConfusion hcon,
                    fun _ => ⟨pm, rfl, rfl⟩⟩⟩
              | ok u =>
                rw [hc] at h
                simp only [List.isEmpty_cons, Bool.false_eq_true, if_false,
                  Option.some.injEq] at h
                subst h
                exact ⟨fun hcon => Terminal.noConfusion hcon,
                  fun _ => ⟨pm.name, "", rfl, rfl,
                    ⟨fun _ => rfl, fun _ => rfl⟩,
                    fun hcon => Terminal.noConfusion hcon,
                    fun _ => ⟨pm, rfl, rfl⟩⟩⟩

/-- C2 witness: the amended theorem at a fully successful request. -/
theorem handle_metrics_per_outcome_witness :
    (resSuccess.terminal = Terminal.noRecords →
      resSuccess.requestCountObs = [] ∧ resSuccess.latencyObs = []) ∧
    (resSuccess.terminal ≠ Terminal.noRecords →
      ∃ svc code, resSuccess.requestCountObs = [(svc, code)]
        ∧ resSuccess.latencyObs = [(svc, code)]
        ∧ (code = "" ↔ resSuccess.terminal = Terminal.success)
        ∧ (resSuccess.terminal = Terminal.paramsError → svc = [])
        ∧ (resSuccess.terminal ≠ Terminal.paramsError →
            ∃ pm, readParams qSvc = some (Except.ok pm) ∧ svc = pm.name)) :=
  handle_metrics_per_outcome qSvc true envOk resSuccess (by decide)

/-- C7: every record assembled by `readProfiles` carries a
`duration_ns` attribute equal to the decimal string of
`(end - start) * 1e9` computed in wrapping unsigned 64-bit arithmetic,
and when `end < start` the subtraction underflows to the huge value
`2^64 - (start - end)` instead of failing. -/
theorem duration_ns_wrapping (q : Query) (pm : Params) (env : Env)
    (records : List OutputRecord) (r : OutputRecord)
    (h1 : pm.start < 2 ^ 64) (h2 : pm.endT < 2 ^ 64)
    (hr : (readProfiles q pm env).1 = .ok records) (hm : r ∈ records) :
    r.durationNs = Nat.repr
        ((pm.endT + (2 ^ 64 - pm.start)) % 2 ^ 64 * 1000000000 % 2 ^ 64)
    ∧ (pm.endT < pm.start →
        (pm.endT + (2 ^ 64 - pm.start)) % 2 ^ 64
          = 2 ^ 64 - (pm.start - pm.endT)) := by
  have hM : (2 : ℕ) ^ 64 = 18446744073709551616 := by norm_num
  have hsub : sub64 pm.endT pm.start
      = (pm.endT + (2 ^ 64 - pm.start)) % 2 ^ 64 := by
    unfold sub64
    rw [hM] at h1 h2 ⊢
    omega
  constructor
  · unfold readProfiles at hr
    split at hr
    · split at hr
      · simp at hr
      · split at hr
        · simp at hr
        · split at hr
          · simp at hr
          · split at hr
            · simp at hr
            · simp only [Prod.fst] at hr
              obtain rfl : _ = records := (Except.ok.inj hr)
              obtain ⟨pr, hpr, rfl⟩ := List.mem_map.mp hm
              show Nat.repr (ns64 (sub64 pm.endT pm.start)) = _
              rw [hsub]
              rfl
    · simp at hr
  · intro hlt
    rw [hM] at h1 h2 ⊢
    omega

/-- C7 witness: the theorem at `start = 2, end = 1` (underflow) with one
parsed record. -/
theorem duration_ns_wrapping_witness :
    ((readProfiles qSvc ⟨2, 1, "svc".toList, []⟩ envOk).1
      = Except.ok [assembleRecord ⟨2, 1, "svc".toList, []⟩ prCpu])
    ∧ ((assembleRecord ⟨2, 1, "svc".toList, []⟩ prCpu).durationNs
        = Nat.repr ((1 + (2 ^ 64 - 2)) % 2 ^ 64 * 1000000000 % 2 ^ 64))
    ∧ ((1 : ℕ) < 2 →
        (1 + (2 ^ 64 - 2)) % 2 ^ 64 = 2 ^ 64 - (2 - 1)) :=
  ⟨by decide,
   (duration_ns_wrapping qSvc ⟨2, 1, "svc".toList, []⟩ envOk
      [assembleRecord ⟨2, 1, "svc".toList, []⟩ prCpu]
      (assembleRecord ⟨2, 1, "svc".toList, []⟩ prCpu)
      (by decide) (by decide) (by decide) (by decide)).1,
   fun _ =>
    (duration_ns_wrapping qSvc ⟨2, 1, "svc".toList, []⟩ envOk
      [assembleRecord ⟨2, 1, "svc".toList, []⟩ prCpu]
      (assembleRecord ⟨2, 1, "svc".toList, []⟩ prCpu)
      (by decide) (by decide) (by decide) (by decide)).2 (by decide)⟩

/-- C8: when the parser yields zero records, the handler responds 204
with nothing delegated downstream, and the outcome is the non-error
no-content terminal state (no metrics error code, no error body). -/
theorem zero_records_no_content (q : Query) (env : Env) (pm : Params)
    (st : List Stage)
    (hp : readParams q = some (.ok pm))
    (hr : readProfiles q pm env = (.ok [], st)) :
    ∃ res, handle q true env = some res ∧ res.status = 204
      ∧ res.delegated = none ∧ res.terminal = Terminal.noRecords
      ∧ res.body = "" := by
  refine ⟨{ status := 204, body := "", terminal := .noRecords
            requestCountObs := [], latencyObs := []
            delegated := none, stages := st }, ?_, rfl, rfl, rfl, rfl⟩
  simp [handle, hp, hr]

/-- C8 witness: the theorem at a well-formed request whose parser
returns no records. -/
theorem zero_records_no_content_witness :
    ∃ res, handle qSvc true envEmptyParse = some res ∧ res.status = 204
      ∧ res.delegated = none ∧ res.terminal = Terminal.noRecords
      ∧ res.body = "" :=
  zero_records_no_content qSvc envEmptyParse pmSvc
    [.formatCheck, .multipart, .decompress, .parse, .assemble]
    (by decide) (by decide)

/-- C9: when the `format` query parameter is absent or not `jfr`,
`readProfiles` fails with the unsupported-format error having attempted
only the format check — neither multipart extraction nor decompression
nor parsing — and the request is answered 400 with that message and
nothing delegated. -/
theorem unsupported_format_rejected_early (q : Query) (pm : Params)
    (env : Env)
    (hfmt : ¬ q.formatV = some ("jfr".toList))
    (hp : readParams q = some (.ok pm)) :
    readProfiles q pm env
      = (.error "unsupported format, supported: [jfr]", [Stage.formatCheck])
    ∧ ∃ res, handle q true env = some res ∧ res.status = 400
      ∧ res.body = "unsupported format, supported: [jfr]"
      ∧ Stage.multipart ∉ res.stages ∧ Stage.decompress ∉ res.stages
      ∧ Stage.parse ∉ res.stages ∧ res.delegated = none := by
  have h1 : readProfiles q pm env
      = (.error "unsupported format, supported: [jfr]",
          [Stage.formatCheck]) := by
    unfold readProfiles
    rw [if_neg hfmt]
  refine ⟨h1, { status := 400, body := "unsupported format, supported: [jfr]"
                terminal := .profilesError
                requestCountObs := [(pm.name, "1")]
                latencyObs := [(pm.name, "1")]
                delegated := none, stages := [Stage.formatCheck] },
    ?_, rfl, rfl, by simp, by simp, by simp, rfl⟩
  simp [handle, hp, h1]

/-- C9 witness: the theorem at a request with no `format` parameter. -/
theorem unsupported_format_rejected_early_witness :
    readProfiles qNoFmt ⟨1, 2, "app".toList, []⟩ envOk
      = (.error "unsupported format, supported: [jfr]", [Stage.formatCheck])
    ∧ ∃ res, handle qNoFmt true envOk = some res ∧ res.status = 400
      ∧ res.body = "unsupported format, supported: [jfr]"
      ∧ Stage.multipart ∉ res.stages ∧ Stage.decompress ∉ res.stages
      ∧ Stage.parse ∉ res.stages ∧ res.delegated = none :=
  unsupported_format_rejected_early qNoFmt ⟨1, 2, "app".toList, []⟩ envOk
    (by decide) (by decide)

/-- C10 counterexample: an interleaving in which the deadline fires
after the goroutine's delegation step but before its completion signal:
the caller receives 408, yet the downstream delegation call with the
completed (non-empty) batch was already made before the deadline fired
— refuting the claim that no delegation call with a completed batch is
made when the handler times out. -/
theorem delegation_made_despite_timeout :
    handle qSvc true envOk = some resSuccess
    ∧ respondedStatus resSuccess
        (deadlineTrace (goroutineScript resSuccess) 3) = 408
    ∧ GoEvent.delegate ∈ performedBeforeDeadline
        (deadlineTrace (goroutineScript resSuccess) 3)
    ∧ resSuccess.delegated = some [assembleRecord pmSvc prCpu] := by decide

/-- C10 amended: whenever the deadline fires before the goroutine's
completion signal — after any number `k` of completed goroutine steps —
the caller receives 408; but the goroutine is not terminated: whenever
it delegated (parse succeeded with a non-empty batch), the delegation
call is part of its executed event sequence regardless of the timeout.
The handler merely stops waiting; it makes no further use of the batch
itself. -/
theorem timeout_responds_408_goroutine_uncancelled (q : Query) (env : Env)
    (res : HandleResult) (k : Nat)
    (h : handle q true env = some res)
    (hk : k < (goroutineScript res).length) :
    respondedStatus res (deadlineTrace (goroutineScript res) k) = 408
    ∧ (res.delegated.isSome → GoEvent.delegate ∈ goroutineScript res) := by
  constructor
  · unfold respondedStatus deadlineTrace
    rw [if_pos (timeout_mem_takeWhile _ _ (signal_not_in_take res k hk))]
  · intro hd
    unfold goroutineScript
    simp [hd]

/-- C10 witness: the amended theorem at a successful request with the
deadline firing before any goroutine step completed. -/
theorem timeout_responds_408_goroutine_uncancelled_witness :
    respondedStatus resSuccess
        (deadlineTrace (goroutineScript resSuccess) 0) = 408
    ∧ (resSuccess.delegated.isSome →
        GoEvent.delegate ∈ goroutineScript resSuccess) :=
  timeout_responds_408_goroutine_uncancelled qSvc envOk resSuccess 0
    (by decide) (by decide)

end OtelPyroscope
